import Mathlib

/-!
A shallow embedding of the `shell` Go package (octacian/shell): command tree
construction and validation (`App.AddCommand`), line-to-command resolution
(`Command.Match`, `App.ExecuteString`), execution (`Command.Execute`) and the
read loop (`App.Main`), together with a value-level model of the `flag`
standard-library collaborator restricted to boolean flags (the only kind the
package's own commands register).

Go slices and strings are modelled with value semantics (Lean lists / strings);
byte indexing of strings is modelled by character indexing, which coincides on
the ASCII data used throughout.  Go panics are made explicit with a `PanicOr`
result type.  Printing to the App's output streams is modelled by returning the
list of printed strings.
-/

namespace Shell

/-- `ExitStatus` from shell.go:11-24: `ExitCmd`, `ExitShell`, `ExitAll`. -/
inductive ExitStatus where
  | exitCmd
  | exitShell
  | exitAll
deriving DecidableEq, Repr

/-- Explicit panic channel for Go code that can panic (index out of range,
slice bounds out of range, nil dereference). -/
inductive PanicOr (α : Type) where
  | panicked (msg : String)
  | ok (val : α)
deriving DecidableEq, Repr

/-- One registered boolean flag of a `flag.FlagSet`: name, default value,
usage text and current value. -/
structure FlagSpec where
  name : String
  defValue : Bool
  usage : String
  value : Bool
deriving DecidableEq, Repr

/-- Model of a `flag.FlagSet` restricted to boolean flags: the registered
flags and, after `Parse`, the remaining positional arguments (`Args`). -/
structure FlagSet where
  flags : List FlagSpec
  args : List String
deriving DecidableEq, Repr

/-- The empty flag set, as created by `flag.NewFlagSet` (command.go:84). -/
def emptyFlagSet : FlagSet := { flags := [], args := [] }

/-- `FlagSet.Bool` registration: appends a boolean flag. -/
def FlagSet.registerBool (fs : FlagSet) (n : String) (d : Bool) (u : String) : FlagSet :=
  { fs with flags := fs.flags ++ [{ name := n, defValue := d, usage := u, value := d }] }

/-- Lookup of a registered flag by name (the `f.formal[name]` map access in
`flag.FlagSet.parseOne`). -/
def lookupFlag (flags : List FlagSpec) (n : String) : Option FlagSpec :=
  flags.find? (fun f => f.name = n)

/-- Set the current value of a registered flag. -/
def setFlagValue (flags : List FlagSpec) (n : String) (b : Bool) : List FlagSpec :=
  flags.map (fun f => if f.name = n then { f with value := b } else f)

/-- `strconv.ParseBool`, used by the `flag` package for `-name=value` boolean
flags. -/
def parseBoolStr (s : String) : Option Bool :=
  if s = "1" ∨ s = "t" ∨ s = "T" ∨ s = "TRUE" ∨ s = "true" ∨ s = "True" then some true
  else if s = "0" ∨ s = "f" ∨ s = "F" ∨ s = "FALSE" ∨ s = "false" ∨ s = "False" then some false
  else none

/-- Split a flag token body at the first `=` starting from its second
character (the `for i := 1; ...` scan in `flag.FlagSet.parseOne`): returns the
name part, whether a `=` was found, and the value part. -/
def splitEqAux : List Char → List Char × Bool × List Char
  | [] => ([], false, [])
  | c :: rest =>
    if c = '=' then ([], true, rest)
    else
      let r := splitEqAux rest
      (c :: r.1, r.2.1, r.2.2)

/-- The `flag.FlagSet.Parse` loop (`parseOne`) for boolean-only flag sets:
consumes leading `-flag` / `--flag` / `-flag=value` tokens, stops at the first
non-flag token or at `--`, and reports unknown flags and malformed syntax as
errors.  Error strings are abbreviated forms of the ones `flag` produces. -/
def flagParseAux : List FlagSpec → List String → Except String (List FlagSpec × List String)
  | flags, [] => .ok (flags, [])
  | flags, s :: rest =>
    let cs := s.toList
    if cs.length < 2 ∨ cs.head? ≠ some '-' then .ok (flags, s :: rest)
    else if cs.get? 1 = some '-' ∧ cs.length = 2 then .ok (flags, rest)
    else
      let numMinuses := if cs.get? 1 = some '-' then 2 else 1
      match cs.drop numMinuses with
      | [] => .error ("bad flag syntax: " ++ s)
      | c0 :: t =>
        if c0 = '-' ∨ c0 = '=' then .error ("bad flag syntax: " ++ s)
        else
          let r := splitEqAux t
          let fname := String.mk (c0 :: r.1)
          match lookupFlag flags fname with
          | none =>
            if fname = "help" ∨ fname = "h" then .error "flag: help requested"
            else .error ("flag provided but not defined: -" ++ fname)
          | some _ =>
            if r.2.1 then
              match parseBoolStr (String.mk r.2.2) with
              | none =>
                .error ("invalid boolean value " ++ String.mk r.2.2 ++ " for -" ++ fname)
              | some b => flagParseAux (setFlagValue flags fname b) rest
            else flagParseAux (setFlagValue flags fname true) rest

/-- `flag.FlagSet.Parse`: on success the flag set holds the updated flag
values and the remaining positional arguments. -/
def FlagSet.parse (fs : FlagSet) (arguments : List String) : Except String FlagSet :=
  match flagParseAux fs.flags arguments with
  | .error e => .error e
  | .ok r => .ok { flags := r.1, args := r.2 }

/-- The current value of a boolean flag, `false` when absent. -/
def FlagSet.boolValue (fs : FlagSet) (n : String) : Bool :=
  match lookupFlag fs.flags n with
  | some f => f.value
  | none => false

/-- `getDefaults` (app.go:118-125): the `PrintDefaults` help text, modelled to
the granularity of one `  -name` / usage-text block per registered flag. -/
def FlagSet.defaultsText (fs : FlagSet) : String :=
  fs.flags.foldl (fun acc f => acc ++ "  -" ++ f.name ++ "\n    \t" ++ f.usage ++ "\n") ""

/-- `getShortDefaults` (app.go:129-135): builds `" [-a] [-b]"` over all flags
via `VisitAll` and then strips the first character with `output.String()[1:]`
— which panics when no flags are registered (the string is empty). -/
def FlagSet.shortDefaults (fs : FlagSet) : PanicOr String :=
  let out := fs.flags.foldl (fun acc f => acc ++ " [-" ++ f.name ++ "]") ""
  if out = "" then .panicked "slice bounds out of range" else .ok (out.drop 1)

/-- Display-only view of a command: its `Name`, `Synopsis` and `Usage`. -/
structure CmdInfo where
  name : String
  synopsis : String
  usage : String
deriving DecidableEq, Repr

/-- View of a sibling sub-command as needed by the default sub-command
handlers: display fields plus its `SetFlags` callback. -/
structure SubView where
  name : String
  synopsis : String
  usage : String
  setFlags : Option (FlagSet → FlagSet)

/-- Snapshot view of the `parent` back-pointer of a sub-command
(command.go:66): the parent's name, its `SetFlags` callback and views of its
sub-commands.  Go stores a live pointer into a cyclic structure; the model
stores the parent's state as registered. -/
structure ParentView where
  name : String
  setFlags : Option (FlagSet → FlagSet)
  subs : List SubView

/-- `Context` (context.go:13-30) as visible to the handlers modelled here:
the parsed flag set, display info of the command it serves, the parent view
for sub-commands, and display views of the App's top-level commands (the
`ctx.App().Commands` accesses).  The string-keyed `values` store is not
carried: the one use the package itself makes of it (the `exit` command
storing the `*bool` result of flag registration) is modelled by reading the
parsed flag value directly from the flag set. -/
structure Context where
  flagSet : FlagSet
  command : CmdInfo
  parent : Option ParentView
  appCommands : List CmdInfo

/-- Type of `Command.Main` handlers: a handler receives the context and
yields the strings it prints and its `ExitStatus`, or panics. -/
abbrev MainFn := Context → PanicOr (List String × ExitStatus)

/-- The non-recursive fields of `Command` (command.go:21-70). -/
structure CmdCore where
  name : String := ""
  synopsis : String := ""
  usage : String := ""
  setFlags : Option (FlagSet → FlagSet) := none
  main : Option MainFn := none
  preventDefaultSubCommands : Bool := false
  parent : Option ParentView := none

/-- `Command` (command.go:21-70): core fields plus the `SubCommands` list. -/
inductive Cmd where
  | mk (core : CmdCore) (subCommands : List Cmd)

/-- The non-recursive fields of a command. -/
def Cmd.core : Cmd → CmdCore
  | .mk c _ => c

/-- The `SubCommands` field. -/
def Cmd.subCommands : Cmd → List Cmd
  | .mk _ s => s

/-- The `Name` field. -/
def Cmd.name (c : Cmd) : String := c.core.name

/-- The `Synopsis` field. -/
def Cmd.synopsis (c : Cmd) : String := c.core.synopsis

/-- The `Usage` field. -/
def Cmd.usage (c : Cmd) : String := c.core.usage

/-- The `SetFlags` field. -/
def Cmd.setFlags (c : Cmd) : Option (FlagSet → FlagSet) := c.core.setFlags

/-- The `Main` field. -/
def Cmd.main (c : Cmd) : Option MainFn := c.core.main

/-- The `PreventDefaultSubCommands` field. -/
def Cmd.preventDefaultSubCommands (c : Cmd) : Bool := c.core.preventDefaultSubCommands

/-- The unexported `parent` field. -/
def Cmd.parent (c : Cmd) : Option ParentView := c.core.parent

/-- Replace the `Usage` field. -/
def Cmd.withUsage (c : Cmd) (u : String) : Cmd :=
  .mk { c.core with usage := u } c.subCommands

/-- Replace the `parent` field. -/
def Cmd.withParent (c : Cmd) (p : Option ParentView) : Cmd :=
  .mk { c.core with parent := p } c.subCommands

/-- Replace the `Main` field. -/
def Cmd.withMain (c : Cmd) (m : Option MainFn) : Cmd :=
  .mk { c.core with main := m } c.subCommands

/-- Replace the `SubCommands` field. -/
def Cmd.withSubCommands (c : Cmd) (s : List Cmd) : Cmd :=
  .mk c.core s

/-- Display view of a command. -/
def Cmd.info (c : Cmd) : CmdInfo :=
  { name := c.name, synopsis := c.synopsis, usage := c.usage }

/-- Sibling view of a command for parent snapshots. -/
def Cmd.toSubView (c : Cmd) : SubView :=
  { name := c.name, synopsis := c.synopsis, usage := c.usage, setFlags := c.setFlags }

/-- `Command.FullName` (command.go:74-80): parent name prepended when the
command is a sub-command. -/
def Cmd.fullName (c : Cmd) : String :=
  match c.parent with
  | some p => p.name ++ " " ++ c.name
  | none => c.name

/-- `Command.GetSubCommand` (command.go:92-100): first sub-command with the
given name, `none` when it does not exist. -/
def Cmd.getSubCommand (c : Cmd) (n : String) : Option Cmd :=
  c.subCommands.find? (fun s => n = s.name)

/-- The flag set produced by running the command's `SetFlags` callback on the
fresh flag set of a new context (command.go:83-88 together with
command.go:126-129). -/
def Cmd.registeredFlagSet (c : Cmd) : FlagSet :=
  match c.setFlags with
  | some f => f emptyFlagSet
  | none => emptyFlagSet

/-- Insert a string into a sorted list (helper for `sort.Strings`). -/
def insertSorted (s : String) : List String → List String
  | [] => [s]
  | t :: rest => if s ≤ t then s :: t :: rest else t :: insertSorted s rest

/-- `sort.Strings`: lexicographic string sort (insertion sort). -/
def sortStrings : List String → List String
  | [] => []
  | s :: rest => insertSorted s (sortStrings rest)

/-- `strings.Join(list, "")`. -/
def concatAll (l : List String) : String :=
  l.foldl (fun a b => a ++ b) ""

/-- Apply an optional `SetFlags` callback to a fresh flag set (the
`reqCmd.NewContext()` plus conditional `reqCmd.SetFlags(reqCtx)` pattern of
shell.go:142-146). -/
def applySetFlags (f : Option (FlagSet → FlagSet)) : FlagSet :=
  match f with
  | some g => g emptyFlagSet
  | none => emptyFlagSet

/-- `SetFlags` of the default `exit` command (shell.go:31-34): registers the
boolean `-shell-only` flag.  The Go code also stores the `*bool` result in the
context values; handlers read it back through the parsed flag set here. -/
def exitSetFlags (fs : FlagSet) : FlagSet :=
  fs.registerBool "shell-only" false
    "exit only the shell, returning to the main program"

/-- `Main` of the default `exit` command (shell.go:35-48): stray positional
arguments print usage and exit the command; otherwise `-shell-only` selects
`ExitShell` over `ExitAll`.  The `ShouldGet("flagOnlyShell").(*bool)` pointer
read is modelled as a lookup of the parsed flag; a missing flag would be a nil
interface conversion, hence the panic branch. -/
def exitMain : MainFn := fun ctx =>
  if 0 < ctx.flagSet.args.length then
    .ok (["Usage: exit [OPTIONS]", ctx.flagSet.defaultsText], .exitCmd)
  else
    match lookupFlag ctx.flagSet.flags "shell-only" with
    | none => .panicked "interface conversion: interface is nil, not *bool"
    | some f => if f.value then .ok ([], .exitShell) else .ok ([], .exitAll)

/-- `Main` of the default top-level `help` command (shell.go:53-84). -/
def helpMain : MainFn := fun ctx =>
  match ctx.flagSet.args with
  | [] =>
    let list := (ctx.appCommands.filter (fun c => c.name ≠ "help")).map
      (fun c => "\t" ++ c.name ++ "\t\t" ++ c.synopsis ++ "\n")
    .ok (["Available commands:\n" ++ concatAll (sortStrings list)], .exitCmd)
  | [arg] =>
    match ctx.appCommands.find? (fun c => arg = c.name) with
    | none => .ok ([arg ++ ": command not found\n"], .exitCmd)
    | some c =>
      .ok ([c.name ++ "\t" ++ c.synopsis ++ "\n"] ++
        (if c.usage ≠ "" then ["\n" ++ c.usage] else []), .exitCmd)
  | _ => .ok (["Usage: help [OPTIONS]", ctx.flagSet.defaultsText], .exitCmd)

/-- `Main` of the default `commands` sub-command (shell.go:96-107): with
arguments prints its own usage, otherwise lists the parent's sub-command
names.  Dereferencing a nil parent panics in Go. -/
def commandsMain : MainFn := fun ctx =>
  if 0 < ctx.flagSet.args.length then
    .ok ([ctx.command.usage], .exitCmd)
  else
    match ctx.parent with
    | none => .panicked "nil pointer dereference"
    | some p => .ok (p.subs.map (fun s => s.name), .exitCmd)

/-- `Main` of the default `flags` sub-command (shell.go:116-151): prints the
flag defaults of the parent command, or of the named sibling sub-command. -/
def flagsMain : MainFn := fun ctx =>
  if 1 < ctx.flagSet.args.length then
    .ok ([ctx.command.usage], .exitCmd)
  else
    match ctx.parent with
    | none => .panicked "nil pointer dereference"
    | some p =>
      if ctx.flagSet.args.length = 0 then
        .ok ([(applySetFlags p.setFlags).defaultsText], .exitCmd)
      else
        let arg := ctx.flagSet.args.headD ""
        match p.subs.find? (fun s => arg = s.name) with
        | none => .ok ([p.name ++ " " ++ arg ++ ": sub-command not found"], .exitCmd)
        | some s => .ok ([(applySetFlags s.setFlags).defaultsText], .exitCmd)

/-- `Main` of the default second-level `help` sub-command (shell.go:160-199). -/
def subHelpMain : MainFn := fun ctx =>
  match ctx.flagSet.args with
  | [] =>
    match ctx.parent with
    | none => .panicked "nil pointer dereference"
    | some p =>
      let list := (p.subs.filter (fun s => s.name ≠ "help")).map
        (fun s => "\t" ++ s.name ++ "\t\t" ++ s.synopsis ++ "\n")
      .ok (["Usage: " ++ p.name ++ " <sub-command> <sub-command args>\n\nSub-commands:\n",
        concatAll (sortStrings list)], .exitCmd)
  | [arg] =>
    match ctx.parent with
    | none => .panicked "nil pointer dereference"
    | some p =>
      match p.subs.find? (fun s => arg = s.name) with
      | none => .ok ([p.name ++ " " ++ arg ++ ": sub-command not found"], .exitCmd)
      | some s => .ok ([s.usage], .exitCmd)
  | _ => .ok ([ctx.command.usage], .exitCmd)

/-- The default top-level `exit` command (shell.go:28-49). -/
def exitCommand : Cmd :=
  .mk { name := "exit", synopsis := "exit shell",
        setFlags := some exitSetFlags, main := some exitMain } []

/-- The default top-level `help` command (shell.go:50-85). -/
def helpCommand : Cmd :=
  .mk { name := "help", synopsis := "list existing commands and their synopsis",
        main := some helpMain } []

/-- `DefaultCommands` (shell.go:27-86). -/
def DefaultCommands : List Cmd := [exitCommand, helpCommand]

/-- The default `commands` sub-command (shell.go:91-108). -/
def commandsDefault : Cmd :=
  .mk { name := "commands", synopsis := "list all sub-command names",
        usage := "${name}:\nPrint a list of all sub-commands.",
        main := some commandsMain } []

/-- The default `flags` sub-command (shell.go:109-152). -/
def flagsDefault : Cmd :=
  .mk { name := "flags", synopsis := "describe all known top-level flags",
        usage := "${name} [<sub-command>]:\nWith an argument, print all flags of <sub-command>. Else, print a\ndescription of all known top-level flags. (The basic help information only\ndiscusses the most generally important top-level flags.)",
        main := some flagsMain } []

/-- The default second-level `help` sub-command (shell.go:153-200). -/
def helpDefault : Cmd :=
  .mk { name := "help", synopsis := "describe sub-commands and their syntax",
        usage := "${name} [<sub-command>]:\nWith an argument, prints detailed information on the use of the specified\nsub-command. With no argument, prints a list of all commands and a brief\ndescription of each.",
        main := some subHelpMain } []

/-- `DefaultSubCommands` (shell.go:90-201): `commands`, `flags`, `help`. -/
def DefaultSubCommands : List Cmd := [commandsDefault, flagsDefault, helpDefault]

/-- `App` (app.go:40-56): its name and top-level commands.  The three stream
handles are abstracted away; printed output is returned by the operations. -/
structure App where
  name : String
  commands : List Cmd

/-- `App.GetByName` (app.go:106-114): first top-level command with the given
name. -/
def App.getByName (app : App) (n : String) : Option Cmd :=
  app.commands.find? (fun c => n = c.name)

/-- The errors `App.AddCommand` returns (app.go:141,165,170,184,196,201),
carrying the same data as the corresponding `fmt.Errorf` format strings. -/
inductive AddErr where
  | duplicate (name : String)
  | subDash
  | tooDeep (name : String)
  | blankName
  | whitespaceInName (name : String) (count : Nat)
  | missingMain (name : String)
deriving DecidableEq, Repr

/-- The whitespace-character count of app.go:187-193 (`unicode.IsSpace` over
the runes of the name). -/
def whitespaceCount (s : String) : Nat :=
  (s.toList.filter Char.isWhitespace).length

/-- Default sub-command injection (app.go:146-159): each entry of
`DefaultSubCommands` is appended in order, except that for the `flags` entry
the code iterates over `append(cmd.SubCommands, cmd)` — evaluated once, with
value semantics here — and appends the `flags` default once per member whose
`SetFlags` is non-nil.  `core` is the command's own field record and `subs0`
its sub-command list at entry. -/
def injectDefaults (core : CmdCore) (subs0 : List Cmd) : List Cmd :=
  DefaultSubCommands.foldl
    (fun subs d =>
      if d.name = "flags" then
        (subs ++ [Cmd.mk core subs]).foldl
          (fun acc item => if item.setFlags.isSome then acc ++ [d] else acc) subs
      else subs ++ [d])
    subs0

/-- The sub-command list after the conditional default injection of
app.go:144-159. -/
def Cmd.subsWithDefaults (c : Cmd) : List Cmd :=
  if 0 < c.subCommands.length ∧ ¬c.preventDefaultSubCommands then
    injectDefaults c.core c.subCommands
  else c.subCommands

/-- The per-sub-command checks of app.go:161-174: a name beginning with `-`
(only tested when the name is non-empty) and second-level sub-commands are
rejected; the first offending sub-command determines the error. -/
def checkSubs (cmdName : String) : List Cmd → Option AddErr
  | [] => none
  | s :: rest =>
    if s.name ≠ "" ∧ s.name.toList.head? = some '-' then some .subDash
    else if 0 < s.subCommands.length then some (.tooDeep cmdName)
    else checkSubs cmdName rest

/-- The per-item pass of app.go:182-221 for one item: blank-name, whitespace
and missing-`Main` validation followed by usage templating.  When `SetFlags`
is set, `${flags}` and `${shortFlags}` are substituted from a scratch flag
set — `getShortDefaults` panics when that flag set is empty; otherwise both
placeholders are replaced by the empty string and the usage is trimmed. -/
def processItem (c : Cmd) : PanicOr (Except AddErr Cmd) :=
  if c.name = "" then .ok (.error .blankName)
  else if 0 < whitespaceCount c.name then
    .ok (.error (.whitespaceInName c.name (whitespaceCount c.name)))
  else if c.main.isNone then .ok (.error (.missingMain c.name))
  else
    let u1 := (c.usage.replace "${name}" c.name).replace "${fullName}" c.fullName
    match c.setFlags with
    | some f =>
      let fs := f emptyFlagSet
      let u2 := u1.replace "${flags}" fs.defaultsText
      match fs.shortDefaults with
      | .panicked m => .panicked m
      | .ok sd => .ok (.ok (c.withUsage (u2.replace "${shortFlags}" sd)))
    | none =>
      .ok (.ok (c.withUsage (((u1.replace "${flags}" "").replace "${shortFlags}" "").trim)))

/-- The items loop of app.go:182-221 over a list of commands, first error or
panic wins. -/
def processItems : List Cmd → PanicOr (Except AddErr (List Cmd))
  | [] => .ok (.ok [])
  | c :: rest =>
    match processItem c with
    | .panicked m => .panicked m
    | .ok (.error e) => .ok (.error e)
    | .ok (.ok c2) =>
      match processItems rest with
      | .panicked m => .panicked m
      | .ok (.error e) => .ok (.error e)
      | .ok (.ok rest2) => .ok (.ok (c2 :: rest2))

/-- The validation-and-assembly body of `App.AddCommand` (app.go:139-221): the
duplicate check, default sub-command injection, per-sub-command checks,
parent back-pointers, and the item pass over the command followed by its
sub-commands (the `items` slice of app.go:177-180).  Returns the finalized
command to append.  Parent back-pointers are snapshot views and are refreshed
after templating so that they show the final registered state the Go pointer
would reach. -/
def App.addCommandAux (app : App) (cmd : Cmd) : PanicOr (Except AddErr Cmd) :=
  if (app.getByName cmd.name).isSome then .ok (.error (.duplicate cmd.name))
  else
    let subs1 := cmd.subsWithDefaults
    match checkSubs cmd.name subs1 with
    | some e => .ok (.error e)
    | none =>
      let pview : ParentView :=
        { name := cmd.name, setFlags := cmd.setFlags, subs := subs1.map Cmd.toSubView }
      let subs2 := subs1.map (fun s => s.withParent (some pview))
      match processItem (Cmd.mk cmd.core subs2) with
      | .panicked m => .panicked m
      | .ok (.error e) => .ok (.error e)
      | .ok (.ok cmd2) =>
        match processItems subs2 with
        | .panicked m => .panicked m
        | .ok (.error e) => .ok (.error e)
        | .ok (.ok subs3) =>
          let pview2 : ParentView :=
            { name := cmd2.name, setFlags := cmd2.setFlags, subs := subs3.map Cmd.toSubView }
          .ok (.ok (cmd2.withSubCommands (subs3.map (fun s => s.withParent (some pview2)))))

/-- `App.AddCommand` (app.go:139-226): on any validation error the App is
returned untouched together with the error; only on full success is the
finalized command appended to `Commands`. -/
def App.addCommand (app : App) (cmd : Cmd) : PanicOr (App × Option AddErr) :=
  match app.addCommandAux cmd with
  | .panicked m => .panicked m
  | .ok (.error e) => .ok (app, some e)
  | .ok (.ok cmd2) => .ok ({ app with commands := app.commands ++ [cmd2] }, none)

/-- Result of `Command.Match` (command.go:106-118): the input panics the
check, does not call for this command, or matches it (either the command
itself or one of its sub-commands). -/
inductive MatchResult where
  | panicked (msg : String)
  | noMatch
  | matched (c : Cmd)

/-- The panic message of a match result, if any. -/
def MatchResult.panicMsg : MatchResult → Option String
  | .panicked m => some m
  | _ => none

/-- The name of the matched command, if any. -/
def MatchResult.matchedName : MatchResult → Option String
  | .matched c => some c.name
  | _ => none

/-- Whether the matched command is a sub-command (has a parent), if any
command matched.  `App.ExecuteString` branches on exactly this (app.go:240). -/
def MatchResult.matchedHasParent : MatchResult → Option Bool
  | .matched c => some c.parent.isSome
  | _ => none

/-- `Command.Match` (command.go:106-118).  The sub-command disambiguation
check is `input[1][1] != '-'` — it reads the **second** byte of the second
token, panicking when that token is a single character, and only evaluates
once `len(cmd.SubCommands) > 0 && len(input) > 1` hold.  `input[0]` on an
empty slice also panics. -/
def Cmd.matchInput (cmd : Cmd) (input : List String) : MatchResult :=
  match input with
  | [] => .panicked "index out of range"
  | t0 :: _ =>
    if t0 = cmd.name then
      if 0 < cmd.subCommands.length ∧ 1 < input.length then
        match (input.getD 1 "").toList.get? 1 with
        | none => .panicked "index out of range"
        | some c =>
          if c ≠ '-' then
            match cmd.getSubCommand (input.getD 1 "") with
            | some sub => .matched sub
            | none => .matched cmd
          else .matched cmd
      else .matched cmd
    else .noMatch

/-- The dispatch-level errors of `App.ExecuteString` and `Command.Execute`:
`ErrNoCmd` (app.go:17-24), `ErrParseInput` (app.go:28-35) and `ErrParseFlags`
(command.go:9-17). -/
inductive ExecErr where
  | noCmd (name : String)
  | parseInput (input : String)
  | parseFlags (name : String) (err : String)
deriving DecidableEq, Repr

/-- The context built by `Command.NewContext` for execution (command.go:83-88,
124), populated with the parsed flag set. -/
def Cmd.mkContext (cmd : Cmd) (app : App) (fs : FlagSet) : Context :=
  { flagSet := fs, command := cmd.info, parent := cmd.parent,
    appCommands := app.commands.map Cmd.info }

/-- `Command.Execute` (command.go:123-137): build a fresh context, run
`SetFlags` when present, parse `input[1:]` (modelled totally as `drop 1`),
return `ErrParseFlags` on failure, otherwise run `Main`.  A nil `Main` would
be a nil-function call in Go, hence the panic branch.  The `app` argument
stands for the `cmd.app` back-pointer. -/
def Cmd.execute (cmd : Cmd) (app : App) (input : List String) :
    PanicOr (ExitStatus × List String × Option ExecErr) :=
  match cmd.registeredFlagSet.parse (input.drop 1) with
  | .error e => .ok (.exitCmd, [], some (.parseFlags cmd.name e))
  | .ok fs =>
    match cmd.main with
    | none => .panicked "nil pointer dereference"
    | some m =>
      match m (cmd.mkContext app fs) with
      | .panicked msg => .panicked msg
      | .ok r => .ok (r.2, r.1, none)

/-- Accumulating splitter for `fields`: `acc` holds the characters of the
current token in reverse. -/
def fieldsAux : List Char → List Char → List String
  | acc, [] => if acc.isEmpty then [] else [String.mk acc.reverse]
  | acc, c :: rest =>
    if c.isWhitespace then
      if acc.isEmpty then fieldsAux [] rest
      else String.mk acc.reverse :: fieldsAux [] rest
    else fieldsAux (c :: acc) rest

/-- `strings.Fields`: whitespace-separated tokens of the input line. -/
def fields (s : String) : List String :=
  fieldsAux [] s.toList

/-- `strings.TrimSpace`: drop leading and trailing whitespace. -/
def trimSpace (s : String) : String :=
  String.mk (((s.toList.dropWhile Char.isWhitespace).reverse.dropWhile Char.isWhitespace).reverse)

/-- The command loop inside `App.ExecuteString` (app.go:237-248): the first
command whose `Match` succeeds is executed — a sub-command (one with a
parent) receives the token slice minus its first token, a top-level command
the full slice — and when none matches the result is `ErrNoCmd`. -/
def App.matchLoop (app : App) : List Cmd → List String → PanicOr (ExitStatus × List String × Option ExecErr)
  | [], split => .ok (.exitCmd, [], some (.noCmd (split.headD "")))
  | c :: rest, split =>
    match c.matchInput split with
    | .panicked m => .panicked m
    | .noMatch => app.matchLoop rest split
    | .matched item =>
      if item.parent.isSome then item.execute app (split.drop 1)
      else item.execute app split

/-- `App.ExecuteString` (app.go:234-252): tokenize, resolve against the
top-level commands and execute; an empty token list yields `ErrParseInput`. -/
def App.executeString (app : App) (input : String) :
    PanicOr (ExitStatus × List String × Option ExecErr) :=
  let split := fields input
  if 0 < split.length then app.matchLoop app.commands split
  else .ok (.exitCmd, [], some (.parseInput input))

/-- The error printing of the read loop (app.go:291-300): `ErrParseFlags` and
`ErrNoCmd` have dedicated formats, anything else (here `ErrParseInput`) is
printed via its `Error` string. -/
def errLines : Option ExecErr → List String
  | none => []
  | some (.parseFlags n m) => [n ++ ": failed to parse flags:\n" ++ m]
  | some (.noCmd n) => [n ++ ": command not found"]
  | some (.parseInput i) => ["App.ExecuteString: failed to parse input '" ++ i ++ "'"]

/-- Prefix the printed output of a loop result. -/
def prependOutput (o : List String) : PanicOr (ExitStatus × List String) → PanicOr (ExitStatus × List String)
  | .panicked m => .panicked m
  | .ok r => .ok (r.1, o ++ r.2)

/-- The body of the read loop (app.go:273-305) over a list of input lines:
end of input returns `ExitShell`, blank lines are skipped, dispatch errors
are printed and the loop continues, and any non-`ExitCmd` status is
returned. -/
def App.mainLoop (app : App) : List String → PanicOr (ExitStatus × List String)
  | [] => .ok (.exitShell, [])
  | line :: rest =>
    if trimSpace line = "" then app.mainLoop rest
    else
      match app.executeString line with
      | .panicked m => .panicked m
      | .ok r =>
        if r.1 = .exitCmd then
          prependOutput (r.2.1 ++ errLines r.2.2) (app.mainLoop rest)
        else .ok (r.1, r.2.1 ++ errLines r.2.2)

/-- `App.Main` (app.go:257-306): prints the welcome banner and runs the read
loop over the available input lines. -/
def App.main (app : App) (lines : List String) : PanicOr (ExitStatus × List String) :=
  prependOutput ["Welcome to the shell. Type \"help\" for available Commands."]
    (app.mainLoop lines)

/-! ### Concrete instances used to exercise the model -/

/-- An App with no registered commands. -/
def emptyApp : App := { name := "app", commands := [] }

/-- The App state after an `AddCommand` call, falling back when the call
panicked. -/
def addedApp (r : PanicOr (App × Option AddErr)) (fallback : App) : App :=
  match r with
  | .ok p => p.1
  | .panicked _ => fallback

/-- The panic message of an `AddCommand` result, if any. -/
def addPanicMsg : PanicOr (App × Option AddErr) → Option String
  | .panicked m => some m
  | .ok _ => none

/-- A handler that prints a fixed output and finishes the command. -/
def plainMain (out : List String) : MainFn := fun _ => .ok (out, .exitCmd)

/-- A command with all fields at their zero values. -/
def dummyCmd : Cmd := .mk {} []

/-- A `SetFlags` callback registering a single boolean flag. -/
def oneFlag (n : String) : FlagSet → FlagSet :=
  fun fs => fs.registerBool n false "a flag"

/-- A `SetFlags` callback that registers no flags at all. -/
def zeroFlags : FlagSet → FlagSet := fun fs => fs

/-- Declaration of a `test` command with one `sub` sub-command. -/
def demoDecl : Cmd :=
  .mk { name := "test", main := some (plainMain ["top"]) }
    [.mk { name := "sub", main := some (plainMain ["sub"]) } []]

/-- App with `demoDecl` registered. -/
def demoApp : App := addedApp (emptyApp.addCommand demoDecl) emptyApp

/-- The registered `test` command (with injected default sub-commands). -/
def demoTest : Cmd := (demoApp.getByName "test").getD dummyCmd

/-- Declaration of a `foo` command with a sub-command named `a-b` (a legal
sub-command name: it does not begin with `-`). -/
def c2Decl : Cmd :=
  .mk { name := "foo", main := some (plainMain ["top"]) }
    [.mk { name := "a-b", main := some (plainMain ["sub"]) } []]

/-- App with `c2Decl` registered. -/
def c2App : App := addedApp (emptyApp.addCommand c2Decl) emptyApp

/-- The registered `foo` command. -/
def c2Foo : Cmd := (c2App.getByName "foo").getD dummyCmd

/-- Declaration of a `many` command with two sub-commands that both define
`SetFlags` (each registering one flag). -/
def c3Decl : Cmd :=
  .mk { name := "many", main := some (plainMain []) }
    [.mk { name := "bar", setFlags := some (oneFlag "b1"), main := some (plainMain []) } [],
     .mk { name := "baz", setFlags := some (oneFlag "b2"), main := some (plainMain []) } []]

/-- App with `c3Decl` registered. -/
def c3App : App := addedApp (emptyApp.addCommand c3Decl) emptyApp

/-- The registered `many` command. -/
def c3Many : Cmd := (c3App.getByName "many").getD dummyCmd

/-- A valid command named `dup` used to occupy a name. -/
def c4Decl : Cmd := .mk { name := "dup", main := some (plainMain []) } []

/-- App that already has a command named `dup`. -/
def c4Base : App := addedApp (emptyApp.addCommand c4Decl) emptyApp

/-- A second, distinct command also named `dup`. -/
def c4Dup : Cmd := .mk { name := "dup", synopsis := "again", main := some (plainMain ["x"]) } []

/-- The App component of registering `c4Dup` on `c4Base`. -/
def c4Res : App := addedApp (c4Base.addCommand c4Dup) emptyApp

/-- Declaration whose `SetFlags` registers zero flags and whose sub-command
has a blank name (default injection suppressed). -/
def c8Decl : Cmd :=
  .mk { name := "c8cmd", setFlags := some zeroFlags, main := some (plainMain []),
        preventDefaultSubCommands := true }
    [.mk { name := "", main := some (plainMain []) } []]

/-- A command whose `SetFlags` registers zero flags, used as the C10
witness. -/
def zfDecl : Cmd :=
  .mk { name := "zf", usage := "no placeholder here",
        setFlags := some zeroFlags, main := some (plainMain []) } []

/-! ### Theorems -/

/-- C1.  The claim says a sub-command lookup is attempted exactly when a
second token exists whose first character is not `-`, and in particular that
the input `test x` (second token a single non-dash character) resolves to the
top-level command.  On the code, `Command.Match` reads `input[1][1]` — the
second character — and therefore panics with an index-out-of-range on this
very input: the registered `test` command has sub-commands, the input has a
second token whose first character is not `-`, and yet no lookup and no match
happen. -/
theorem match_short_second_token_panics :
    demoTest.name = "test" ∧ 0 < demoTest.subCommands.length ∧
    (demoTest.matchInput ["test", "x"]).panicMsg = some "index out of range" := by
  refine ⟨rfl, by decide, rfl⟩

/-- C2.  The claim says that whenever the second token equals the name of a
registered sub-command (and does not look like a flag), resolution returns
that sub-command with the token slice minus the first token.  On the code,
for the registered command `foo` with sub-command `a-b` and the input
`foo a-b`, the disambiguation check reads the second character `-` of the
second token and skips the lookup entirely: the top-level command `foo`
(without a parent, so with the full token slice) is the match and its handler
runs, even though `a-b` names an existing sub-command. -/
theorem match_skips_subcommand_with_dash_second_char :
    (c2Foo.getSubCommand "a-b").map Cmd.name = some "a-b" ∧
    (c2Foo.matchInput ["foo", "a-b"]).matchedName = some "foo" ∧
    (c2Foo.matchInput ["foo", "a-b"]).matchedHasParent = some false ∧
    c2App.executeString "foo a-b" = .ok (.exitCmd, ["top"], none) := by
  refine ⟨rfl, rfl, rfl, by decide⟩

/-- C3.  The claim says the `flags` default sub-command is appended at most
once (exactly when some command at that level defines `setFlags`).  On the
code, the injection loop appends `flags` once per command with a non-nil
`SetFlags`: registering `many` with two flag-defining sub-commands yields six
sub-commands — the two declared ones, `commands`, `help`, and `flags`
**twice** — where the claim predicts five with `flags` once. -/
theorem addCommand_injects_flags_default_twice :
    c3Many.subCommands.length = 6 ∧
    (c3Many.subCommands.filter (fun s => s.name = "flags")).length = 2 ∧
    c3Many.subCommands.map Cmd.name = ["bar", "baz", "commands", "flags", "flags", "help"] := by
  refine ⟨by decide, by decide, by decide⟩

/-- C8.  The claim says that for the command and every post-injection
sub-command, in order, `addCommand` fails with a blank-name error when a name
is empty.  On the code, when an earlier item in the pass (here the command
itself) defines a `SetFlags` callback registering zero flags, usage
templating panics (`getShortDefaults` slices an empty string) before the
blank-named sub-command is ever validated: `addCommand` panics instead of
returning the blank-name error. -/
theorem addCommand_panics_before_blank_sub_validation :
    c8Decl.subCommands.map Cmd.name = [""] ∧
    addPanicMsg (emptyApp.addCommand c8Decl) = some "slice bounds out of range" := by
  refine ⟨rfl, rfl⟩

/-- C9.  Executing the string `test x` against an App whose registered `test`
command has sub-commands panics with an index-out-of-range: the
flag-disambiguation check of `Command.Match` indexes the second token's
second character unconditionally, and the second token has length one. -/
theorem executeString_short_second_token_panics :
    demoApp.executeString "test x" = .panicked "index out of range" := by
  decide

/-- C4.  `AddCommand` is all-or-nothing: whenever it returns an error, the
App it returns — the receiver state after the call — is exactly the App it
was given; validation and default injection work on a copy and the command is
appended only on full success. -/
theorem addCommand_error_leaves_app_unchanged :
    ∀ (app : App) (cmd : Cmd) (res : App) (e : AddErr),
    app.addCommand cmd = .ok (res, some e) → res = app := by
  intro app cmd res e h
  unfold App.addCommand at h
  cases haux : app.addCommandAux cmd with
  | panicked m => rw [haux] at h; cases h
  | ok r =>
    cases r with
    | error e2 =>
      rw [haux] at h
      have := congrArg (fun x => match x with | PanicOr.ok p => p.1 | _ => app) h
      simpa using this.symm
    | ok c2 =>
      rw [haux] at h
      have := congrArg (fun x => match x with | PanicOr.ok p => p.2 | _ => none) h
      simp at this

/-- Witness for C4: registering a second command named `dup` on an App that
already has one fails with the duplicate error and leaves the command list
untouched. -/
theorem addCommand_error_leaves_app_unchanged_witness : c4Res = c4Base :=
  addCommand_error_leaves_app_unchanged c4Base c4Dup c4Res (.duplicate "dup") rfl

/-- C10.  Any otherwise-registrable command (fresh name, non-blank,
whitespace-free, with a handler, here without sub-commands) whose `SetFlags`
callback registers zero flags makes `AddCommand` panic during usage
templating: `getShortDefaults` slices the first character off an empty
string.  The usage string is arbitrary — the panic does not depend on any
`${shortFlags}` placeholder being present, because Go evaluates the
`strings.ReplaceAll` argument unconditionally. -/
theorem addCommand_zero_flag_setflags_panics :
    ∀ (app : App) (cmd : Cmd) (f : FlagSet → FlagSet),
    cmd.setFlags = some f → (f emptyFlagSet).flags = [] →
    app.getByName cmd.name = none → cmd.subCommands = [] →
    cmd.name ≠ "" → whitespaceCount cmd.name = 0 → cmd.main.isSome →
    app.addCommand cmd = .panicked "slice bounds out of range" := by
  intro app cmd f hsf hflags hdup hsubs hname hws hmain
  cases cmd with
  | mk core subs =>
    simp only [Cmd.subCommands] at hsubs
    subst hsubs
    simp only [Cmd.setFlags, Cmd.core] at hsf
    simp only [Cmd.name, Cmd.core] at hdup hname hws
    simp only [Cmd.main, Cmd.core] at hmain
    cases hm : core.main with
    | none => rw [hm] at hmain; cases hmain
    | some m =>
      unfold App.addCommand App.addCommandAux
      have hsd : Cmd.subsWithDefaults (Cmd.mk core []) = [] := by
        simp [Cmd.subsWithDefaults, Cmd.subCommands]
      simp only [Cmd.name, Cmd.core, hsd]
      rw [hdup]
      simp only [Option.isSome_none, Bool.false_eq_true, if_false]
      simp only [checkSubs, List.map_nil]
      unfold processItem
      simp only [Cmd.name, Cmd.core, Cmd.main, Cmd.setFlags, Cmd.usage, Cmd.fullName,
        Cmd.parent]
      rw [if_neg hname, if_neg (by simp [hws]), hm]
      simp only [Option.isNone_some, Bool.false_eq_true, if_false]
      rw [hsf]
      have hshort : (f emptyFlagSet).shortDefaults = .panicked "slice bounds out of range" := by
        unfold FlagSet.shortDefaults
        rw [hflags]
        rfl
      simp only [hshort]

/-- Witness for C10: the concrete command `zf`, whose `SetFlags` registers no
flags, panics `AddCommand` on the empty App. -/
theorem addCommand_zero_flag_setflags_panics_witness :
    emptyApp.addCommand zfDecl = .panicked "slice bounds out of range" :=
  addCommand_zero_flag_setflags_panics emptyApp zfDecl zeroFlags rfl rfl rfl rfl
    (by decide) rfl rfl

/-- C5.  For every command and argument slice: when parsing the slice minus
its first token against the command's registered flags fails, `Execute`
returns `ErrParseFlags` carrying the command's name and the underlying parser
error, and the `Main` handler is never invoked (the result is the same under
any replacement of `Main`); when parsing succeeds, `Main` runs and its
`ExitStatus` is returned with no error. -/
theorem execute_flag_parse_dichotomy :
    ∀ (cmd : Cmd) (app : App) (input : List String),
    (∀ e, cmd.registeredFlagSet.parse (input.drop 1) = .error e →
      cmd.execute app input = .ok (.exitCmd, [], some (.parseFlags cmd.name e)) ∧
      ∀ m2, (cmd.withMain m2).execute app input
          = .ok (.exitCmd, [], some (.parseFlags cmd.name e))) ∧
    (∀ fs m out st, cmd.registeredFlagSet.parse (input.drop 1) = .ok fs →
      cmd.main = some m → m (cmd.mkContext app fs) = .ok (out, st) →
      cmd.execute app input = .ok (st, out, none)) := by
  intro cmd app input
  constructor
  · intro e he
    have hsame : (cmd.withMain (none : Option MainFn)).registeredFlagSet
        = cmd.registeredFlagSet := by
      cases cmd with
      | mk core subs => simp [Cmd.withMain, Cmd.registeredFlagSet, Cmd.setFlags, Cmd.core]
    constructor
    · unfold Cmd.execute
      rw [he]
    · intro m2
      unfold Cmd.execute
      cases cmd with
      | mk core subs =>
        simp only [Cmd.withMain, Cmd.registeredFlagSet, Cmd.setFlags, Cmd.core,
          Cmd.name] at he ⊢
        rw [he]
  · intro fs m out st hok hm hrun
    unfold Cmd.execute
    rw [hok, hm]
    simp [hrun]

/-- Witness for C5: the `exit` command on the malformed flag token `---x`
returns the flag-parse error and no handler output. -/
theorem execute_flag_parse_dichotomy_witness :
    exitCommand.execute emptyApp ["exit", "---x"]
      = .ok (.exitCmd, [], some (.parseFlags "exit" "bad flag syntax: ---x")) :=
  ((execute_flag_parse_dichotomy exitCommand emptyApp ["exit", "---x"]).1
    "bad flag syntax: ---x" (by rfl)).1

/-- Setting a flag value does not change flag names. -/
theorem setFlagValue_names (flags : List FlagSpec) (n : String) (b : Bool) :
    (setFlagValue flags n b).map FlagSpec.name = flags.map FlagSpec.name := by
  induction flags with
  | nil => rfl
  | cons f t ih =>
    simp only [setFlagValue, List.map_cons] at ih ⊢
    by_cases hf : f.name = n <;> simp [hf, ih]

/-- Flag parsing preserves the set of registered flag names. -/
theorem flagParseAux_names :
    ∀ (args : List String) (flags : List FlagSpec) (r : List FlagSpec × List String),
    flagParseAux flags args = .ok r → r.1.map FlagSpec.name = flags.map FlagSpec.name := by
  intro args
  induction args with
  | nil =>
    intro flags r h
    simp only [flagParseAux] at h
    cases h
    rfl
  | cons s rest ih =>
    intro flags r h
    simp only [flagParseAux] at h
    split at h
    · cases h; rfl
    · split at h
      · cases h; rfl
      · split at h
        · cases h
        · split at h
          · cases h
          · split at h
            · split at h
              · cases h
              · cases h
            · split at h
              · split at h
                · cases h
                · rw [ih _ r h, setFlagValue_names]
              · rw [ih _ r h, setFlagValue_names]

/-- After a successful parse against the `exit` command's registered flags,
the flag set holds exactly the `shell-only` flag. -/
theorem exit_parse_flags_shape :
    ∀ (rest : List String) (fs : FlagSet),
    exitCommand.registeredFlagSet.parse rest = .ok fs →
    ∃ f : FlagSpec, fs.flags = [f] ∧ f.name = "shell-only" := by
  intro rest fs h
  unfold FlagSet.parse at h
  cases haux : flagParseAux exitCommand.registeredFlagSet.flags rest with
  | error e => rw [haux] at h; cases h
  | ok r =>
    rw [haux] at h
    cases h
    have hn := flagParseAux_names rest _ r haux
    have hbase : (exitCommand.registeredFlagSet.flags.map FlagSpec.name) = ["shell-only"] := rfl
    rw [hbase] at hn
    rcases hc : r.1 with _ | ⟨f, t⟩
    · rw [hc] at hn; simp at hn
    · rcases t with _ | ⟨g, t2⟩
      · rw [hc] at hn
        simp at hn
        exact ⟨f, by simp [hc], hn⟩
      · rw [hc] at hn; simp at hn

/-- When parsing succeeds and `Main` is present, `Execute` returns what the
handler returns (command.go:132-136). -/
theorem execute_runs_main (cmd : Cmd) (app : App) (input : List String) (fs : FlagSet)
    (m : MainFn) (out : List String) (st : ExitStatus)
    (hok : cmd.registeredFlagSet.parse (input.drop 1) = .ok fs)
    (hm : cmd.main = some m) (hrun : m (cmd.mkContext app fs) = .ok (out, st)) :
    cmd.execute app input = .ok (st, out, none) := by
  unfold Cmd.execute
  rw [hok, hm]
  simp [hrun]

/-- C6.  For every invocation of the default `exit` command whose flag
parsing succeeds: one or more stray positional arguments print the usage
block and return `ExitCmd`; with no positional arguments the command returns
`ExitShell` when `-shell-only` was set and `ExitAll` otherwise. -/
theorem exit_command_behavior :
    ∀ (app : App) (rest : List String) (fs : FlagSet),
    exitCommand.registeredFlagSet.parse rest = .ok fs →
    (0 < fs.args.length →
      exitCommand.execute app ("exit" :: rest)
        = .ok (.exitCmd, ["Usage: exit [OPTIONS]", fs.defaultsText], none)) ∧
    (fs.args = [] →
      exitCommand.execute app ("exit" :: rest)
        = .ok ((if fs.boolValue "shell-only" then .exitShell else .exitAll), [], none)) := by
  intro app rest fs h
  have hok : exitCommand.registeredFlagSet.parse (("exit" :: rest).drop 1) = .ok fs := h
  have hctx : (exitCommand.mkContext app fs).flagSet = fs := rfl
  constructor
  · intro hargs
    have hrun : exitMain (exitCommand.mkContext app fs)
        = .ok (["Usage: exit [OPTIONS]", fs.defaultsText], .exitCmd) := by
      unfold exitMain
      rw [hctx, if_pos hargs]
    exact execute_runs_main exitCommand app _ fs exitMain _ _ hok rfl hrun
  · intro hargs
    obtain ⟨f, hf, hfn⟩ := exit_parse_flags_shape rest fs h
    have hlook : lookupFlag fs.flags "shell-only" = some f := by
      rw [hf]
      simp [lookupFlag, hfn]
    have hbv : fs.boolValue "shell-only" = f.value := by
      unfold FlagSet.boolValue
      rw [hlook]
    have hrun : exitMain (exitCommand.mkContext app fs)
        = .ok ([], if fs.boolValue "shell-only" then .exitShell else .exitAll) := by
      unfold exitMain
      rw [hctx]
      have hlen : ¬ 0 < fs.args.length := by rw [hargs]; simp
      rw [if_neg hlen, hlook, hbv]
      by_cases hv : f.value <;> simp [hv]
    exact execute_runs_main exitCommand app _ fs exitMain _ _ hok rfl hrun

/-- Witness for C6: `exit -shell-only` parses successfully with no positional
arguments and returns `ExitShell`. -/
theorem exit_command_behavior_witness :
    exitCommand.execute emptyApp ["exit", "-shell-only"] = .ok (.exitShell, [], none) :=
  (exit_command_behavior emptyApp ["-shell-only"]
    { flags := [{ name := "shell-only", defValue := false,
                  usage := "exit only the shell, returning to the main program",
                  value := true }],
      args := [] } (by rfl)).2 rfl

/-- Whenever the read-loop body returns a value, that value is `ExitShell`
or `ExitAll`. -/
theorem mainLoop_ok_status :
    ∀ (app : App) (lines : List String) (st : ExitStatus) (out : List String),
    app.mainLoop lines = .ok (st, out) → st = .exitShell ∨ st = .exitAll := by
  intro app lines
  induction lines with
  | nil =>
    intro st out h
    simp only [App.mainLoop] at h
    cases h
    exact Or.inl rfl
  | cons line rest ih =>
    intro st out h
    simp only [App.mainLoop] at h
    split at h
    · exact ih st out h
    · cases hex : app.executeString line with
      | panicked m => rw [hex] at h; cases h
      | ok r =>
        rw [hex] at h
        dsimp only at h
        by_cases hst : r.1 = .exitCmd
        · rw [if_pos hst] at h
          cases hml : app.mainLoop rest with
          | panicked m => rw [hml] at h; simp [prependOutput] at h
          | ok r2 =>
            rw [hml] at h
            simp only [prependOutput] at h
            cases h
            exact ih r2.1 r2.2 (by rw [hml])
        · rw [if_neg hst] at h
          cases h
          cases hc : r.1 with
          | exitCmd => exact absurd hc hst
          | exitShell => exact Or.inl rfl
          | exitAll => exact Or.inr rfl

/-- C7.  The read loop never returns an error value and never returns
`ExitCmd`: whenever `App.Main` returns, the status is `ExitShell` or
`ExitAll` (its Go signature has no error channel at all), and a dispatch
error on a non-blank line with `ExitCmd` status is printed to the App's
output after which the loop simply continues on the remaining input. -/
theorem main_loop_returns_only_shell_or_all :
    (∀ (app : App) (lines : List String) (st : ExitStatus) (out : List String),
      app.main lines = .ok (st, out) → st = .exitShell ∨ st = .exitAll) ∧
    (∀ (app : App) (line : String) (rest : List String) (out : List String) (e : ExecErr),
      trimSpace line ≠ "" →
      app.executeString line = .ok (.exitCmd, out, some e) →
      app.mainLoop (line :: rest)
        = prependOutput (out ++ errLines (some e)) (app.mainLoop rest)) := by
  constructor
  · intro app lines st out h
    unfold App.main at h
    cases hml : app.mainLoop lines with
    | panicked m => rw [hml] at h; simp [prependOutput] at h
    | ok r =>
      rw [hml] at h
      simp only [prependOutput] at h
      cases h
      exact mainLoop_ok_status app lines r.1 r.2 (by rw [hml])
  · intro app line rest out e hline hex
    simp only [App.mainLoop]
    rw [if_neg hline, hex]
    rfl

/-- Witness for C7: on the empty App the single line `boo` produces a
command-not-found message and the loop ends with `ExitShell` at end of
input — one of the two permitted return values. -/
theorem main_loop_returns_only_shell_or_all_witness :
    emptyApp.main ["boo"]
      = .ok (.exitShell,
          ["Welcome to the shell. Type \"help\" for available Commands.",
           "boo: command not found"]) ∧
    (ExitStatus.exitShell = .exitShell ∨ ExitStatus.exitShell = .exitAll) :=
  ⟨by decide,
   (main_loop_returns_only_shell_or_all).1 emptyApp ["boo"] .exitShell
     ["Welcome to the shell. Type \"help\" for available Commands.",
      "boo: command not found"] (by decide)⟩

end Shell
